import Mathlib

/-!
Shallow embedding of the DrawChain server game engine
(src/pages/api/socket.ts) and of the voice-chat signaling client
(src/components/Canvas.tsx), with theorems settling the spec claims.

Modelling conventions:
- The mutable per-room `Game` object becomes an immutable structure; each
  socket.io handler becomes a pure function from the pre-state (plus the
  message payload) to the post-state together with the list of emissions.
- `NodeJS.Timeout` handles are not data and are omitted; timer callbacks
  are separate asynchronous entry points and are not needed by any claim.
- The random `get3Words()` draw is passed in as an explicit `pick`
  parameter (an oracle), since no claim depends on which words are drawn.
- JS array indexing `a[i]` with a possibly out-of-range or negative index
  becomes an `Option`-valued lookup (JS yields `undefined`).
- System chat messages are modelled by their identity (constructor), not
  their literal text.
-/

inductive Status where
  | LOBBY
  | SELECTING
  | DRAWING
  | ENDED
deriving DecidableEq, Repr

/-- `Player` record from socket.ts (the `disconnectTimeout` handle is a
timer and is omitted). -/
structure Player where
  id : String
  name : String
  avatar : String
  score : Nat
  guessed : Bool
  disconnected : Bool
deriving DecidableEq, Repr

/-- `Game` record from socket.ts (the `timer` handle is omitted). -/
structure Game where
  roomId : String
  status : Status
  players : List Player
  drawerIndex : Int
  currentWord : String
  wordOptions : List String
  maxRounds : Nat
  currentRound : Nat
  drawTime : Nat
  timeLeft : Nat
  hostId : String
deriving DecidableEq, Repr

/-- The state object sent to clients: the `Game` spread with `timer`
removed and `currentWord` / `wordOptions` possibly filtered. -/
structure Pub where
  roomId : String
  status : Status
  players : List Player
  drawerIndex : Int
  currentWord : String
  wordOptions : List String
  maxRounds : Nat
  currentRound : Nat
  drawTime : Nat
  timeLeft : Nat
  hostId : String
deriving DecidableEq, Repr

/-- Identity of a system chat message (literal text elided). -/
inductive Sys where
  | guessedWord (user : String)
  | youGuessed (points : Nat)
  | everyoneGuessed
  | drawerLeft
  | hostPromoted (name : String)
  | playerLeft (name : String)
  | win
  | wordChosen
  | welcomeBack
  | needTwoPlayers
deriving DecidableEq, Repr

/-- A socket.io payload emitted by the server. -/
inductive Payload where
  | update (s : Pub)
  | system (m : Sys)
  | chat (user text : String)
  | ended (players : List Player)
  | joinError
  | clearCanvas
deriving DecidableEq, Repr

/-- An emission together with its addressing mode:
`toRoom` is `io.to(roomId).emit` (every member of the room),
`toPlayer` is `io.to(p.id).emit` (that one connection),
`toSender` is `socket.emit` (the handling connection only),
`toOthers` is `socket.to(roomId).emit` (room members minus the sender). -/
inductive Emit where
  | toRoom (p : Payload)
  | toPlayer (pid : String) (p : Payload)
  | toSender (pid : String) (p : Payload)
  | toOthers (pid : String) (p : Payload)
deriving DecidableEq, Repr

/-- JS `arr[i]` for a signed index: `undefined` (none) when out of range. -/
def getAtInt (l : List Player) (i : Int) : Option Player :=
  if 0 ≤ i then l[i.toNat]? else none

/-- `game.players[game.drawerIndex]?.id` -/
def drawerIdOpt (g : Game) : Option String :=
  (getAtInt g.players g.drawerIndex).map Player.id

/-- `game.players.find(p => p.id === pid)` -/
def findPlayer (g : Game) (pid : String) : Option Player :=
  g.players.find? (fun p => p.id == pid)

/-- `!game.players.find(p => p.id === playerId)?.guessed` (negated):
the viewer's guessed flag, false when the viewer is not in the list. -/
def guessedOf (g : Game) (pid : String) : Bool :=
  ((findPlayer g pid).map Player.guessed).getD false

def scoreOf (g : Game) (pid : String) : Nat :=
  ((findPlayer g pid).map Player.score).getD 0

/-- Whether the JS regex `.` matches a character (it matches everything
except the four line terminators). -/
def jsDotMatches (c : Char) : Bool :=
  !(c == Char.ofNat 10 || c == Char.ofNat 13 ||
    c == Char.ofNat 0x2028 || c == Char.ofNat 0x2029)

/-- `game.currentWord.replace(/./g, '_ ')`: every character the regex dot
matches (spaces included) is replaced by the two-character string
underscore-space. -/
def maskWord (w : String) : String :=
  String.mk (w.data.flatMap (fun c => if jsDotMatches c then ['_', ' '] else [c]))

/-- `getPublicState` from socket.ts: the per-recipient view. -/
def getPublicState (g : Game) (pid : String) : Pub :=
  { roomId := g.roomId
    status := g.status
    players := g.players
    drawerIndex := g.drawerIndex
    currentWord :=
      if g.status == Status.DRAWING && !(drawerIdOpt g == some pid) && !(guessedOf g pid)
      then maskWord g.currentWord
      else g.currentWord
    wordOptions :=
      if g.status == Status.SELECTING && !(drawerIdOpt g == some pid)
      then []
      else g.wordOptions
    maxRounds := g.maxRounds
    currentRound := g.currentRound
    drawTime := g.drawTime
    timeLeft := g.timeLeft
    hostId := g.hostId }

/-- The per-player `game-update` fan-out loop
`game.players.forEach(p => io.to(p.id).emit('game-update', getPublicState(game, p.id)))`. -/
def perPlayerUpdates (g : Game) : List Emit :=
  g.players.map (fun p => Emit.toPlayer p.id (Payload.update (getPublicState g p.id)))

/-- `nextTurn` from socket.ts. `pick` stands for the random `get3Words()`
draw. The caller guarantees the room exists. -/
def nextTurn (g : Game) (pick : List String) : Game × List Emit :=
  let d1 : Int := g.drawerIndex + 1
  let wrapped : Bool := decide ((g.players.length : Int) ≤ d1)
  let d2 : Int := if wrapped then 0 else d1
  let r2 : Nat := if wrapped then g.currentRound + 1 else g.currentRound
  let gA : Game := { g with drawerIndex := d2, currentRound := r2 }
  if gA.maxRounds < r2 then
    let gB : Game := { gA with status := Status.ENDED }
    (gB, [Emit.toRoom Payload.clearCanvas] ++ perPlayerUpdates gB ++
      [Emit.toRoom (Payload.ended gB.players)])
  else
    let gB : Game := { gA with
      status := Status.SELECTING
      wordOptions := pick
      currentWord := ""
      timeLeft := 15
      players := gA.players.map (fun p => { p with guessed := false }) }
    (gB, [Emit.toRoom Payload.clearCanvas] ++ perPlayerUpdates gB)

/-- `startRound` from socket.ts. -/
def startRound (g : Game) (word : String) : Game × List Emit :=
  let g1 : Game := { g with
    status := Status.DRAWING
    currentWord := word
    wordOptions := []
    timeLeft := g.drawTime }
  (g1, perPlayerUpdates g1 ++ [Emit.toRoom (Payload.system Sys.wordChosen)])

/-- Integer ceiling division on naturals (zero divisor yields zero). -/
def ceilDiv (a b : Nat) : Nat := (a + b - 1) / b

/-- `Math.max(10, Math.ceil(game.timeLeft / game.drawTime * 500))` in
exact arithmetic. -/
def guessPoints (timeLeft drawTime : Nat) : Nat :=
  max 10 (ceilDiv (timeLeft * 500) drawTime)

/-- JS WhiteSpace for `trim` (the ASCII part; the word bank and chat
inputs of interest contain no exotic Unicode spaces). -/
def isWsp (c : Char) : Bool := c == ' ' || c == '\t' || c == '\n' || c == '\r'

def dropLeadingWs (l : List Char) : List Char :=
  match l with
  | [] => []
  | c :: rest => if isWsp c then dropLeadingWs rest else c :: rest

/-- JS `String.prototype.trim`: strip whitespace from both ends. -/
def jsTrim (l : List Char) : List Char :=
  ((dropLeadingWs (dropLeadingWs l).reverse)).reverse

/-- JS `toLowerCase` per character (ASCII case fold; the word bank is
ASCII). -/
def jsToLowerChar (c : Char) : Char :=
  if 65 ≤ c.toNat && c.toNat ≤ 90 then Char.ofNat (c.toNat + 32) else c

/-- `data.text.trim().toLowerCase() === game.currentWord.toLowerCase()` -/
def matchesGuess (text word : String) : Bool :=
  (jsTrim text.data).map jsToLowerChar == word.data.map jsToLowerChar

/-- Rewrite the first list element whose id matches (the JS `find` returns
an object reference which is then mutated in place). -/
def updateFirstPlayer (l : List Player) (pid : String) (f : Player → Player) : List Player :=
  match l with
  | [] => []
  | p :: rest => if p.id == pid then f p :: rest else p :: updateFirstPlayer rest pid f

/-- Rewrite the element at a natural index, identity when out of range. -/
def modifyAt (l : List Player) (n : Nat) (f : Player → Player) : List Player :=
  match l, n with
  | [], _ => []
  | p :: rest, 0 => f p :: rest
  | p :: rest, Nat.succ m => p :: modifyAt rest m f

/-- Rewrite the element at a signed index (JS mutation through
`game.players[game.drawerIndex]`), identity when the index is negative. -/
def modifyAtInt (l : List Player) (i : Int) (f : Player → Player) : List Player :=
  if 0 ≤ i then modifyAt l i.toNat f else l

/-- The chat-message handler from socket.ts. Returns `none` exactly when
the JS code would crash reading `.id` of `undefined` (a correct fresh
guess while `drawerIndex` is out of range); otherwise the post-state and
emissions. -/
def chatMessage (g : Game) (senderId user text : String) (pick : List String) :
    Option (Game × List Emit) :=
  if g.status == Status.DRAWING && matchesGuess text g.currentWord then
    match findPlayer g senderId with
    | some player =>
      if !player.guessed then
        match drawerIdOpt g with
        | none => none
        | some did =>
          if !(player.id == did) then
            let pts : Nat := guessPoints g.timeLeft g.drawTime
            let players1 : List Player :=
              updateFirstPlayer g.players senderId
                (fun p => { p with guessed := true, score := p.score + pts })
            let g1 : Game := { g with players := players1 }
            let players2 : List Player :=
              modifyAtInt players1 g.drawerIndex
                (fun p => { p with score := p.score + 50 })
            let g2 : Game := { g1 with players := players2 }
            let base : List Emit :=
              [Emit.toOthers senderId (Payload.system (Sys.guessedWord user)),
               Emit.toSender senderId (Payload.system (Sys.youGuessed pts)),
               Emit.toRoom (Payload.update (getPublicState g2 senderId))] ++
              perPlayerUpdates g2
            let guessers : List Player := g2.players.filter (fun p => !(p.id == did))
            if guessers.all (fun p => p.guessed) then
              let nt := nextTurn g2 pick
              some (nt.1, base ++ [Emit.toRoom (Payload.system Sys.everyoneGuessed)] ++ nt.2)
            else
              some (g2, base)
          else some (g, [Emit.toRoom (Payload.chat user text)])
      else some (g, [Emit.toRoom (Payload.chat user text)])
    | none => some (g, [Emit.toRoom (Payload.chat user text)])
  else some (g, [Emit.toRoom (Payload.chat user text)])

/-- Delivery semantics of one emission for one connection, given the set
of connections joined to the socket.io room. -/
def deliveredTo (members : List String) (pid : String) (e : Emit) : Option Payload :=
  match e with
  | Emit.toRoom p => if members.contains pid then some p else none
  | Emit.toPlayer q p => if q == pid then some p else none
  | Emit.toSender q p => if q == pid then some p else none
  | Emit.toOthers s p => if members.contains pid && !(pid == s) then some p else none

def payloadsTo (evs : List Emit) (members : List String) (pid : String) : List Payload :=
  evs.filterMap (deliveredTo members pid)

/-- The `currentWord` fields of all game-state payloads a connection
receives from a list of emissions. -/
def wordsTo (evs : List Emit) (members : List String) (pid : String) : List String :=
  (payloadsTo evs members pid).filterMap
    (fun p => match p with | Payload.update s => some s.currentWord | _ => none)

/-- Whether some emission is the room-wide "player left" notice. -/
def hasPlayerLeftNotice (evs : List Emit) : Bool :=
  evs.any (fun e =>
    match e with
    | Emit.toRoom (Payload.system (Sys.playerLeft _)) => true
    | _ => false)

/-- The select-word handler from socket.ts: accepted iff the sender is the
player at `drawerIndex`; silently ignored otherwise (also when the room
does not exist). -/
def selectWord (gOpt : Option Game) (socketId word : String) :
    Option Game × List Emit :=
  match gOpt with
  | none => (none, [])
  | some g =>
    if drawerIdOpt g == some socketId then
      let r := startRound g word
      (some r.1, r.2)
    else (some g, [])

/-- Room creation config; `none` fields model absent JS properties. -/
structure Config where
  rounds : Option Nat
  drawTime : Option Nat
deriving DecidableEq, Repr

/-- JS `x || d` for a numeric option: the default is taken when the value
is absent or falsy (zero). -/
def orConfig (o : Option Nat) (d : Nat) : Nat :=
  match o with
  | some n => if n == 0 then d else n
  | none => d

/-- The start-game handler from socket.ts. Note: the source checks only
that the room exists and has at least 2 players; the phase is never
inspected. -/
def startGame (gOpt : Option Game) (senderId : String) (config : Option Config)
    (pick : List String) : Option Game × List Emit :=
  match gOpt with
  | none => (none, [])
  | some g =>
    if g.players.length < 2 then
      (some g, [Emit.toSender senderId (Payload.system Sys.needTwoPlayers)])
    else
      let g1 : Game := { g with
        maxRounds := match config with
          | some c => orConfig c.rounds g.maxRounds
          | none => g.maxRounds
        drawTime := match config with
          | some c => orConfig c.drawTime g.drawTime
          | none => g.drawTime
        currentRound := 1
        drawerIndex := -1
        players := g.players.map (fun p => { p with score := 0, guessed := false }) }
      let nt := nextTurn g1 pick
      (some nt.1, nt.2)

/-- `findIndex` by player id. -/
def findIdxById (l : List Player) (pid : String) : Option Nat :=
  match l with
  | [] => none
  | p :: rest =>
    if p.id == pid then some 0
    else (findIdxById rest pid).map Nat.succ

/-- `findIndex` by player name. -/
def findIdxByName (l : List Player) (nm : String) : Option Nat :=
  match l with
  | [] => none
  | p :: rest =>
    if p.name == nm then some 0
    else (findIdxByName rest nm).map Nat.succ

/-- `array.splice(i, 1)`. -/
def eraseAt (l : List Player) (n : Nat) : List Player :=
  match l, n with
  | [], _ => []
  | _ :: rest, 0 => rest
  | p :: rest, Nat.succ m => p :: eraseAt rest m

def defaultPlayer : Player :=
  { id := "", name := "", avatar := "", score := 0, guessed := false, disconnected := false }

/-- `handlePlayerRemove` from socket.ts. Returns `none` exactly when the
room is deleted (no players remain); `pick` feeds any resulting
`nextTurn` call. When the player is not in the room the state is
untouched and nothing is emitted. -/
def handlePlayerRemove (g : Game) (pid : String) (pick : List String) :
    Option (Game × List Emit) :=
  match findIdxById g.players pid with
  | none => some (g, [])
  | some i =>
    let player : Player := (g.players[i]?).getD defaultPlayer
    let wasDrawer : Bool := decide ((i : Int) = g.drawerIndex)
    let wasHost : Bool := g.hostId == pid
    let g1 : Game := { g with
      players := eraseAt g.players i
      drawerIndex := if (i : Int) < g.drawerIndex then g.drawerIndex - 1 else g.drawerIndex }
    if g1.players.length == 0 then
      none
    else if !(g1.status == Status.LOBBY) && g1.players.length < 2 then
      let wId : String := ((g1.players[0]?).map Player.id).getD ""
      let g2 : Game := { g1 with
        status := Status.ENDED
        players := modifyAt g1.players 0 (fun p => { p with score := p.score + 100 })
        hostId := wId }
      some (g2, [Emit.toRoom (Payload.update (getPublicState g2 wId)),
                 Emit.toRoom (Payload.system Sys.win),
                 Emit.toRoom (Payload.ended g2.players)])
    else
      let firstId : String := ((g1.players[0]?).map Player.id).getD ""
      let firstName : String := ((g1.players[0]?).map Player.name).getD ""
      let g2 : Game := if wasHost then { g1 with hostId := firstId } else g1
      let hostEvs : List Emit :=
        if wasHost then [Emit.toRoom (Payload.system (Sys.hostPromoted firstName))] else []
      if wasDrawer && g2.status == Status.DRAWING then
        let g3 : Game := { g2 with drawerIndex := g2.drawerIndex - 1 }
        let nt := nextTurn g3 pick
        some (nt.1, hostEvs ++ [Emit.toRoom (Payload.system Sys.drawerLeft)] ++ nt.2)
      else
        let inner : Game × List Emit :=
          if g2.status == Status.DRAWING then
            match drawerIdOpt g2 with
            | some did =>
              let guessers : List Player := g2.players.filter (fun p => !(p.id == did))
              if 0 < guessers.length && guessers.all (fun p => p.guessed) then
                let nt := nextTurn g2 pick
                (nt.1, [Emit.toRoom (Payload.system Sys.everyoneGuessed)] ++ nt.2)
              else (g2, [])
            | none =>
              nextTurn g2 pick
          else (g2, [])
        some (inner.1,
          hostEvs ++ inner.2 ++ perPlayerUpdates inner.1 ++
          [Emit.toRoom (Payload.system (Sys.playerLeft player.name))])

/-- `if (avatar) p.avatar = avatar` (empty string is falsy). -/
def avatarUpdate (a : Option String) (old : String) : String :=
  match a with
  | some s => if s == "" then old else s
  | none => old

def defaultAvatar : String := "default-avatar"

/-- `avatar || <default>` (empty string is falsy). -/
def avatarOrDefault (a : Option String) : String :=
  match a with
  | some s => if s == "" then defaultAvatar else s
  | none => defaultAvatar

/-- The join-room handler from socket.ts: create on first join only when
a config is supplied, otherwise a sender-only join-error; reconciliation
by connection id, then by name (reconnect); else append a new player. -/
def joinRoom (gOpt : Option Game) (socketId roomId username : String)
    (config : Option Config) (avatar : Option String) :
    Option Game × List Emit :=
  let created : Option Game :=
    match gOpt with
    | some g => some g
    | none =>
      match config with
      | none => none
      | some c => some
        { roomId := roomId
          status := Status.LOBBY
          players := []
          drawerIndex := 0
          currentWord := ""
          wordOptions := []
          maxRounds := orConfig c.rounds 3
          currentRound := 1
          drawTime := orConfig c.drawTime 60
          timeLeft := 0
          hostId := socketId }
  match created with
  | none => (none, [Emit.toSender socketId Payload.joinError])
  | some g =>
    let idx : Option Nat :=
      match findIdxById g.players socketId with
      | some i => some i
      | none => findIdxByName g.players username
    match idx with
    | some i =>
      let oldId : String := ((g.players[i]?).map Player.id).getD ""
      let players1 : List Player :=
        modifyAt g.players i (fun p =>
          { p with name := username, id := socketId, disconnected := false,
                   avatar := avatarUpdate avatar p.avatar })
      let g1 : Game := { g with players := players1 }
      let g2 : Game := if g1.hostId == oldId then { g1 with hostId := socketId } else g1
      (some g2,
        [Emit.toSender socketId (Payload.system Sys.welcomeBack),
         Emit.toRoom (Payload.update (getPublicState g2 socketId))] ++
        perPlayerUpdates g2)
    | none =>
      let g1 : Game := { g with players := g.players ++
        [{ id := socketId, name := username, avatar := avatarOrDefault avatar,
           score := 0, guessed := false, disconnected := false }] }
      (some g1,
        [Emit.toRoom (Payload.update (getPublicState g1 socketId))] ++
        perPlayerUpdates g1)

/-- Lexicographic comparison of char lists, the semantics of the JS `<`
operator on strings (code-unit lexicographic; a proper nonempty extension
is greater). -/
def charListLt (a b : List Char) : Bool :=
  match a, b with
  | _, [] => false
  | [], _ :: _ => true
  | x :: xs, y :: ys => if x < y then true else if y < x then false else charListLt xs ys

/-- JS `a < b` on strings. -/
def strLtB (a b : String) : Bool := charListLt a.data b.data

/-- Kind of a signaling payload exchanged between voice-chat clients
(Canvas.tsx): an SDP offer, an SDP answer, or an ICE candidate. -/
inductive SignalKind where
  | offer
  | answer
  | candidate
deriving DecidableEq, Repr

/-- The spontaneous-offer scan of the VoiceChat players effect in
Canvas.tsx: for each listed player, skip self, skip peers that already
have a connection, and initiate (create a connection and send an offer)
only when the local id sorts strictly below the peer id. Returns the
ids offered to. -/
def scanOfferTargets (me : String) (playerIds existingPeers : List String) :
    List String :=
  playerIds.filter (fun pid =>
    !(pid == me) && !(existingPeers.contains pid) && strLtB me pid)

/-- The 2-second reconciliation loop of VoiceChat in Canvas.tsx: same
skip-self, not-yet-connected and lower-id-initiates conditions as the
first-sight scan. Returns the ids offered to on one pass. -/
def retryOfferTargets (me : String) (playerIds existingPeers : List String) :
    List String :=
  playerIds.filter (fun pid =>
    !(pid == me) && !(existingPeers.contains pid) && strLtB me pid)

/-- The signaling messages a VoiceChat client emits from inside
`handleSignal` in Canvas.tsx in response to one incoming signal: an
incoming offer is answered (toward its sender); answers and candidates
produce no outgoing signaling message; self-echoes are dropped. -/
def handleSignalReply (me sender : String) (k : SignalKind) :
    List (String × SignalKind) :=
  if sender == me then []
  else
    match k with
    | SignalKind.offer => [(sender, SignalKind.answer)]
    | SignalKind.answer => []
    | SignalKind.candidate => []

/-- Modelled from the spec: the server-side voice-signal relay handler is
not present under src (socket.ts has no voice-signal listener; DEPLOY.md
says the deployed build moves the server code into a custom server that
is not part of this tree, and the clients in Canvas.tsx both emit and
listen for voice-signal). Per spec sections 4.3 and 6, a
voice-signal message carrying a target and an opaque signal is relayed
1:1, uninterpreted, to the connection named by target only, tagged with
the sender id. Returns the list of deliveries (recipient, sender,
signal). -/
def voiceSignalRelay (sender target : String) (signal : String) :
    List (String × String × String) :=
  [(target, sender, signal)]

/-! ### Concrete fixtures used by counterexamples and witnesses -/

def pA : Player :=
  { id := "A", name := "Ann", avatar := "x", score := 0, guessed := false, disconnected := false }

def pB : Player :=
  { id := "B", name := "Ben", avatar := "x", score := 0, guessed := false, disconnected := false }

def pC : Player :=
  { id := "C", name := "Cal", avatar := "x", score := 0, guessed := false, disconnected := false }

/-- A 3-player room mid-DRAWING: Ann is drawing the word apple, nobody
has guessed yet. -/
def gDraw : Game :=
  { roomId := "r", status := Status.DRAWING, players := [pA, pB, pC],
    drawerIndex := 0, currentWord := "apple", wordOptions := [],
    maxRounds := 3, currentRound := 1, drawTime := 60, timeLeft := 30, hostId := "A" }

/-- The room state and emissions produced when Ben submits the correct
guess in `gDraw` (defaulted projection of the handler result). -/
def guessResult : Game × List Emit :=
  (chatMessage gDraw "B" "Ben" "apple" ["x", "y", "z"]).getD (gDraw, [])

/-- C1: the claim is violated by the code at this input. During DRAWING,
after Ben guesses correctly, the handler at socket.ts:369 broadcasts
`getPublicState(game, socket.id)` — the guessing sender's view, in which
the word is no longer masked — to the whole room, so Cal, who is neither
the drawer nor flagged guessed, receives the literal currentWord. -/
theorem chat_broadcast_leaks_word_to_nonguesser :
    (chatMessage gDraw "B" "Ben" "apple" ["x", "y", "z"]).isSome = true
    ∧ "apple" ∈ wordsTo guessResult.2 ["A", "B", "C"] "C"
    ∧ guessedOf guessResult.1 "C" = false
    ∧ (drawerIdOpt guessResult.1 == some "C") = false
    ∧ guessResult.1.status = Status.DRAWING
    ∧ guessResult.1.currentWord = "apple" := by
  decide

/-- The masking rule as the spec words it (for comparison with the code):
letters become underscores one-for-one and space characters are kept. -/
def maskWordClaim (w : String) : String :=
  String.mk (w.data.map (fun c => if c == ' ' then c else '_'))

/-- A 2-player room mid-DRAWING on a two-word phrase. -/
def gIce : Game :=
  { roomId := "r", status := Status.DRAWING, players := [pA, pB],
    drawerIndex := 0, currentWord := "ice cream", wordOptions := [],
    maxRounds := 3, currentRound := 1, drawTime := 60, timeLeft := 30, hostId := "A" }

/-- C5 counterexample: the claim is false on the code. For the word
"ice cream", the masked view delivered to the non-guessing guesser Ben is
"_ _ _ _ _ _ _ _ _ " — the space is replaced like any other character
(JS `replace(/./g, '_ ')` matches spaces), not preserved as the claim
(and spec) state. -/
theorem mask_does_not_preserve_spaces :
    gIce.status = Status.DRAWING
    ∧ (drawerIdOpt gIce == some "B") = false
    ∧ guessedOf gIce "B" = false
    ∧ (getPublicState gIce "B").currentWord = "_ _ _ _ _ _ _ _ _ "
    ∧ maskWordClaim gIce.currentWord = "___ _____"
    ∧ (getPublicState gIce "B").currentWord ≠ maskWordClaim gIce.currentWord := by
  decide

/-- C5 amended: during DRAWING the view delivered to a guesser who has
not yet guessed replaces every character of currentWord — spaces
included, line terminators excepted — by the two-character string
underscore-space; spacing is not preserved. -/
theorem mask_replaces_every_char (g : Game) (pid : String)
    (hs : g.status = Status.DRAWING)
    (hd : (drawerIdOpt g == some pid) = false)
    (hg : guessedOf g pid = false) :
    (getPublicState g pid).currentWord.data =
      g.currentWord.data.flatMap
        (fun c => if jsDotMatches c then ['_', ' '] else [c]) := by
  simp [getPublicState, hs, hd, hg, maskWord]

/-- Witness for the amended C5 at a concrete input. -/
theorem mask_replaces_every_char_w :
    (getPublicState gIce "B").currentWord.data =
      gIce.currentWord.data.flatMap
        (fun c => if jsDotMatches c then ['_', ' '] else [c]) :=
  mask_replaces_every_char gIce "B" rfl (by decide) (by decide)

/-- C10: in SELECTING, a select-word from the current drawer starts the
round with the submitted word whatever it is — the handler never checks
membership of the word in wordOptions (the theorem quantifies over all
words with no membership hypothesis). -/
theorem select_word_no_option_check (g : Game) (sid w : String)
    (hsel : g.status = Status.SELECTING)
    (hdr : drawerIdOpt g = some sid) :
    ∃ g2 evs, selectWord (some g) sid w = (some g2, evs)
      ∧ g2.status = Status.DRAWING
      ∧ g2.currentWord = w
      ∧ g2.wordOptions = []
      ∧ g2.timeLeft = g.drawTime
      ∧ g2.players = g.players
      ∧ g2.drawerIndex = g.drawerIndex := by
  refine ⟨(startRound g w).1, (startRound g w).2, ?_, rfl, rfl, rfl, rfl, rfl, rfl⟩
  simp [selectWord, hdr]

/-- A 2-player room in SELECTING with Ann to choose among three offered
words. -/
def gSel : Game :=
  { roomId := "r", status := Status.SELECTING, players := [pA, pB],
    drawerIndex := 0, currentWord := "", wordOptions := ["cat", "dog", "sun"],
    maxRounds := 3, currentRound := 1, drawTime := 60, timeLeft := 15, hostId := "A" }

/-- Witness for C10: the drawer submits "zebra", which is not among the
three offered options, and the round starts with it anyway. -/
theorem select_word_no_option_check_w :
    gSel.wordOptions.contains "zebra" = false
    ∧ ∃ g2 evs, selectWord (some gSel) "A" "zebra" = (some g2, evs)
        ∧ g2.status = Status.DRAWING ∧ g2.currentWord = "zebra" := by
  refine ⟨by decide, ?_⟩
  obtain ⟨g2, evs, h1, h2, h3, -, -, -, -⟩ :=
    select_word_no_option_check gSel "A" "zebra" rfl (by decide)
  exact ⟨g2, evs, h1, h2, h3⟩

/-- C4 (relay modelled from the spec, the server handler being outside
this tree): a voice-signal carrying a target is delivered to exactly the
connection named target, and to no other connection. -/
theorem voice_relay_target_only (sender target signal c : String) :
    ((voiceSignalRelay sender target signal).map (fun d => d.1)) = [target]
    ∧ ((c, sender, signal) ∈ voiceSignalRelay sender target signal ↔ c = target) := by
  refine ⟨rfl, ?_⟩
  simp [voiceSignalRelay]

theorem charListLt_irrefl (l : List Char) : charListLt l l = false := by
  induction l with
  | nil => rfl
  | cons a as ih => simp [charListLt, ih]

theorem charListLt_asymm (xs : List Char) :
    ∀ ys, charListLt xs ys = true → charListLt ys xs = false := by
  induction xs with
  | nil =>
    intro ys h
    cases ys with
    | nil => simp [charListLt] at h
    | cons b bs => rfl
  | cons a as ih =>
    intro ys h
    cases ys with
    | nil => simp [charListLt] at h
    | cons b bs =>
      by_cases hab : a < b
      · simp [charListLt, hab, asymm hab]
      · by_cases hba : b < a
        · simp [charListLt, hab, hba] at h
        · have hrec : charListLt as bs = true := by
            simpa [charListLt, hab, hba] using h
          simp [charListLt, hab, hba, ih bs hrec]

theorem strLtB_asymm (a b : String) (h : strLtB a b = true) : strLtB b a = false :=
  charListLt_asymm a.data b.data h

theorem strLtB_ne (a b : String) (h : strLtB a b = true) : a ≠ b := by
  intro he
  subst he
  have := charListLt_irrefl a.data
  rw [strLtB] at h
  exact absurd h (by simp [this])

/-- C9: the glare-avoidance initiator rule of the voice mesh. For ids
a < b (JS string order), b never appears in the set of peers a answers
only; concretely: the spontaneous first-sight scan and the 2-second
reconciliation loop of b never emit an offer toward a, while a offers
toward b exactly when b is listed and not yet connected; and the reply
path never emits an offer at all. -/
theorem voice_initiator_rule (a b : String) (players peers : List String)
    (h : strLtB a b = true) :
    (b ∈ scanOfferTargets a players peers ↔ (b ∈ players ∧ b ∉ peers))
    ∧ (b ∈ retryOfferTargets a players peers ↔ (b ∈ players ∧ b ∉ peers))
    ∧ a ∉ scanOfferTargets b players peers
    ∧ a ∉ retryOfferTargets b players peers
    ∧ (∀ (k : SignalKind) (t : String), (t, SignalKind.offer) ∉ handleSignalReply b a k) := by
  have hba : strLtB b a = false := strLtB_asymm a b h
  have hne : a ≠ b := strLtB_ne a b h
  refine ⟨?_, ?_, ?_, ?_, ?_⟩
  · simp [scanOfferTargets, List.mem_filter, h, hne.symm]
  · simp [retryOfferTargets, List.mem_filter, h, hne.symm]
  · simp [scanOfferTargets, List.mem_filter, hba]
  · simp [retryOfferTargets, List.mem_filter, hba]
  · intro k t
    cases k <;> simp [handleSignalReply, hne.symm]

/-- Witness for C9 at concrete ids. -/
theorem voice_initiator_rule_w :
    strLtB "a" "b" = true
    ∧ "b" ∈ scanOfferTargets "a" ["a", "b"] []
    ∧ "a" ∉ scanOfferTargets "b" ["a", "b"] []
    ∧ "a" ∉ retryOfferTargets "b" ["a", "b"] [] := by
  have h := voice_initiator_rule "a" "b" ["a", "b"] [] (by decide)
  exact ⟨by decide, h.1.mpr (by decide), h.2.2.1, h.2.2.2.1⟩

/-- C7: joining an unknown room. Without a config the handler emits a
join-error to the sender only — no room is created and nothing else is
emitted; with a config a fresh LOBBY room is created with the supplied
settings (falsy-defaulted) and the joiner is its only player (score 0,
host). -/
theorem join_unknown_room (socketId roomId username : String) (avatar : Option String) :
    (joinRoom none socketId roomId username none avatar =
      (none, [Emit.toSender socketId Payload.joinError]))
    ∧ (∀ c : Config, ∃ g1 evs,
        joinRoom none socketId roomId username (some c) avatar = (some g1, evs)
        ∧ g1.status = Status.LOBBY
        ∧ g1.roomId = roomId
        ∧ g1.hostId = socketId
        ∧ g1.players.map Player.id = [socketId]
        ∧ g1.players.map Player.name = [username]
        ∧ g1.players.map Player.score = [0]
        ∧ g1.players.map Player.guessed = [false]
        ∧ g1.maxRounds = orConfig c.rounds 3
        ∧ g1.drawTime = orConfig c.drawTime 60) := by
  refine ⟨rfl, ?_⟩
  intro c
  exact ⟨_, _, rfl, rfl, rfl, rfl, rfl, rfl, rfl, rfl, rfl, rfl⟩

/-- A 2-player room mid-DRAWING in round 2 with accumulated scores. -/
def gMid : Game :=
  { roomId := "r", status := Status.DRAWING,
    players := [{ pA with score := 120 }, { pB with score := 80, guessed := true }],
    drawerIndex := 1, currentWord := "apple", wordOptions := [],
    maxRounds := 3, currentRound := 2, drawTime := 60, timeLeft := 10, hostId := "A" }

/-- C3 counterexample: the claim is false on the code. start-game is
accepted in a room whose phase is DRAWING (the handler never inspects the
phase): with 2 players present the game is reset and restarted rather
than left unchanged. -/
theorem start_game_accepted_mid_game :
    gMid.status = Status.DRAWING
    ∧ ∃ g2 evs, startGame (some gMid) "A" none ["x", "y", "z"] = (some g2, evs)
        ∧ g2.currentRound = 1
        ∧ g2.status = Status.SELECTING
        ∧ g2.players.map Player.score = [0, 0]
        ∧ g2 ≠ gMid := by
  refine ⟨rfl, _, _, rfl, by decide, by decide, by decide, by decide⟩

/-- C3 amended: start-game is accepted whenever the room exists and has
at least 2 players, in any phase (the LOBBY-only restriction of the claim
is not in the code); acceptance resets currentRound to 1, every score to
0, every guessed flag to false and drawerIndex to -1, then immediately
calls advance-turn. With fewer than 2 players only a sender-only notice
is emitted and the state is unchanged; against a nonexistent room nothing
happens. -/
theorem start_game_behavior (g : Game) (senderId : String) (config : Option Config)
    (pick : List String) :
    (startGame none senderId config pick = (none, []))
    ∧ (g.players.length < 2 → startGame (some g) senderId config pick =
        (some g, [Emit.toSender senderId (Payload.system Sys.needTwoPlayers)]))
    ∧ (2 ≤ g.players.length → ∃ g1,
        g1.currentRound = 1
        ∧ g1.drawerIndex = -1
        ∧ g1.players = g.players.map (fun p => { p with score := 0, guessed := false })
        ∧ g1.status = g.status
        ∧ startGame (some g) senderId config pick =
            (some (nextTurn g1 pick).1, (nextTurn g1 pick).2)) := by
  refine ⟨rfl, ?_, ?_⟩
  · intro h
    simp [startGame, h]
  · intro h
    have hlt : ¬ (g.players.length < 2) := by omega
    refine ⟨{ g with
        maxRounds := match config with
          | some c => orConfig c.rounds g.maxRounds
          | none => g.maxRounds
        drawTime := match config with
          | some c => orConfig c.drawTime g.drawTime
          | none => g.drawTime
        currentRound := 1
        drawerIndex := -1
        players := g.players.map (fun p => { p with score := 0, guessed := false }) },
      rfl, rfl, rfl, rfl, ?_⟩
    simp [startGame, hlt]

/-- Witness for the amended C3: both the accept branch (2 players, mid
game) and the reject branch (single player) at concrete inputs. -/
theorem start_game_behavior_w :
    2 ≤ gMid.players.length
    ∧ ∃ g1, g1.currentRound = 1 ∧ g1.drawerIndex = -1
        ∧ g1.players = gMid.players.map (fun p => { p with score := 0, guessed := false })
        ∧ g1.status = gMid.status
        ∧ startGame (some gMid) "A" none ["x", "y", "z"] =
            (some (nextTurn g1 ["x", "y", "z"]).1, (nextTurn g1 ["x", "y", "z"]).2) :=
  ⟨by decide, (start_game_behavior gMid "A" none ["x", "y", "z"]).2.2 (by decide)⟩

/-- The state part of one advance-turn. -/
def stepTurn (pick : List String) (g : Game) : Game := (nextTurn g pick).1

theorem nextTurn_counters (g : Game) (pick : List String) :
    (nextTurn g pick).1.players.length = g.players.length
    ∧ (nextTurn g pick).1.drawerIndex =
        (if (g.players.length : Int) ≤ g.drawerIndex + 1 then 0 else g.drawerIndex + 1)
    ∧ (nextTurn g pick).1.currentRound =
        (if (g.players.length : Int) ≤ g.drawerIndex + 1 then g.currentRound + 1
         else g.currentRound) := by
  by_cases h : (g.players.length : Int) ≤ g.drawerIndex + 1
  · by_cases h2 : g.maxRounds < g.currentRound + 1 <;>
      simp [nextTurn, h, h2, List.length_map]
  · by_cases h2 : g.maxRounds < g.currentRound <;>
      simp [nextTurn, h, h2, List.length_map]

theorem stepTurn_iter (pick : List String) (g : Game)
    (hd0 : 0 ≤ g.drawerIndex) (hdn : g.drawerIndex < (g.players.length : Int)) :
    ∀ j : Nat, j ≤ g.players.length →
      ((stepTurn pick)^[j] g).players.length = g.players.length
      ∧ ((stepTurn pick)^[j] g).drawerIndex =
          (if g.drawerIndex + (j : Int) < (g.players.length : Int)
           then g.drawerIndex + (j : Int)
           else g.drawerIndex + (j : Int) - (g.players.length : Int))
      ∧ ((stepTurn pick)^[j] g).currentRound =
          (if g.drawerIndex + (j : Int) < (g.players.length : Int)
           then g.currentRound else g.currentRound + 1) := by
  intro j
  induction j with
  | zero =>
    intro _
    simp [hdn]
  | succ m ih =>
    intro hm
    have hm' : m ≤ g.players.length := by omega
    obtain ⟨hl, hd, hr⟩ := ih hm'
    rw [Function.iterate_succ_apply']
    obtain ⟨cl, cd, cr⟩ := nextTurn_counters ((stepTurn pick)^[m] g) pick
    have hstep : stepTurn pick ((stepTurn pick)^[m] g) =
        (nextTurn ((stepTurn pick)^[m] g) pick).1 := rfl
    rw [hstep, cl, cd, cr, hl, hd, hr]
    refine ⟨rfl, ?_, ?_⟩
    · push_cast
      split_ifs <;> omega
    · push_cast
      split_ifs <;> omega

/-- C8: with a fixed nonempty player list of length n and a drawer index
currently in range, n consecutive advance-turn calls bring currentRound
from r to exactly r+1 and return drawerIndex to its starting value,
wrapping to 0 at exactly one of the n calls. -/
theorem advance_turn_full_cycle (g : Game) (pick : List String)
    (hn : 0 < g.players.length)
    (hd0 : 0 ≤ g.drawerIndex)
    (hdn : g.drawerIndex < (g.players.length : Int)) :
    ((stepTurn pick)^[g.players.length] g).currentRound = g.currentRound + 1
    ∧ ((stepTurn pick)^[g.players.length] g).drawerIndex = g.drawerIndex
    ∧ (∃! j : Nat, j < g.players.length
        ∧ ((stepTurn pick)^[j + 1] g).drawerIndex = 0
        ∧ ((stepTurn pick)^[j + 1] g).currentRound =
            ((stepTurn pick)^[j] g).currentRound + 1) := by
  obtain ⟨hl, hd, hr⟩ := stepTurn_iter pick g hd0 hdn g.players.length le_rfl
  have hcond : ¬ (g.drawerIndex + (g.players.length : Int) < (g.players.length : Int)) := by
    omega
  have htn : (g.drawerIndex.toNat : Int) = g.drawerIndex := Int.toNat_of_nonneg hd0
  refine ⟨?_, ?_, ?_⟩
  · rw [hr, if_neg hcond]
  · rw [hd, if_neg hcond]
    omega
  · refine ⟨g.players.length - 1 - g.drawerIndex.toNat, ⟨?_, ?_, ?_⟩, ?_⟩
    · omega
    · obtain ⟨-, hdj, -⟩ := stepTurn_iter pick g hd0 hdn
        (g.players.length - 1 - g.drawerIndex.toNat + 1) (by omega)
      rw [hdj]
      split_ifs with hc
      · omega
      · omega
    · obtain ⟨-, -, hrj1⟩ := stepTurn_iter pick g hd0 hdn
        (g.players.length - 1 - g.drawerIndex.toNat + 1) (by omega)
      obtain ⟨-, -, hrj0⟩ := stepTurn_iter pick g hd0 hdn
        (g.players.length - 1 - g.drawerIndex.toNat) (by omega)
      rw [hrj1, hrj0]
      split_ifs with hc1 hc2 <;> omega
    · intro j hj
      obtain ⟨hjn, hdj, -⟩ := hj
      obtain ⟨-, hdj1, -⟩ := stepTurn_iter pick g hd0 hdn (j + 1) (by omega)
      rw [hdj1] at hdj
      split_ifs at hdj <;> omega

/-- Witness for C8 at a concrete 3-player room. -/
theorem advance_turn_full_cycle_w :
    ((stepTurn ["x", "y", "z"])^[gDraw.players.length] gDraw).currentRound =
      gDraw.currentRound + 1
    ∧ ((stepTurn ["x", "y", "z"])^[gDraw.players.length] gDraw).drawerIndex =
      gDraw.drawerIndex := by
  have h := advance_turn_full_cycle gDraw ["x", "y", "z"] (by decide) (by decide) (by decide)
  exact ⟨h.1, h.2.1⟩

theorem find?_updateFirstPlayer (l : List Player) (pid : String) (f : Player → Player)
    (hf : ∀ p, (f p).id = p.id) :
    (updateFirstPlayer l pid f).find? (fun p => p.id == pid) =
      (l.find? (fun p => p.id == pid)).map f := by
  induction l with
  | nil => rfl
  | cons p rest ih =>
    by_cases hp : p.id == pid
    · simp [updateFirstPlayer, List.find?, hp, hf p]
    · simp only [updateFirstPlayer, hp, if_false, Bool.false_eq_true]
      simp only [List.find?, hp, ih]

theorem find?_modifyAt (l : List Player) (f : Player → Player) (pid : String)
    (hf : ∀ p, (f p).id = p.id) :
    ∀ n : Nat, ((l[n]?).map Player.id) ≠ some pid →
      (modifyAt l n f).find? (fun p => p.id == pid) = l.find? (fun p => p.id == pid) := by
  induction l with
  | nil => intro n _; rfl
  | cons p rest ih =>
    intro n hne
    cases n with
    | zero =>
      have hp : (p.id == pid) = false := by
        simp only [List.getElem?_cons_zero, Option.map_some'] at hne
        simpa using fun he => hne (by rw [he])
      simp only [modifyAt, List.find?]
      rw [show ((f p).id == pid) = false by simpa [hf p] using hp, hp]
    | succ m =>
      have hm : ((rest[m]?).map Player.id) ≠ some pid := by
        simpa using hne
      by_cases hp : p.id == pid
      · simp [modifyAt, List.find?, hp]
      · simp only [modifyAt, List.find?, hp, Bool.false_eq_true]
        exact ih m hm

theorem getAt_updateFirst (l : List Player) (pid : String) (f : Player → Player) :
    ∀ i : Nat, ((l[i]?).map Player.id) ≠ some pid →
      (updateFirstPlayer l pid f)[i]? = l[i]? := by
  induction l with
  | nil => intro i _; rfl
  | cons p rest ih =>
    intro i hne
    cases i with
    | zero =>
      have hp : (p.id == pid) = false := by
        simp only [List.getElem?_cons_zero, Option.map_some'] at hne
        simpa using fun he => hne (by rw [he])
      simp [updateFirstPlayer, hp]
    | succ m =>
      have hm : ((rest[m]?).map Player.id) ≠ some pid := by
        simpa using hne
      by_cases hp : p.id == pid
      · simp [updateFirstPlayer, hp]
      · simp [updateFirstPlayer, hp, ih m hm]

theorem getAt_modifyAt (l : List Player) (f : Player → Player) :
    ∀ n : Nat, (modifyAt l n f)[n]? = (l[n]?).map f := by
  induction l with
  | nil => intro n; cases n <;> rfl
  | cons p rest ih =>
    intro n
    cases n with
    | zero => simp [modifyAt]
    | succ m => simpa [modifyAt] using ih m

/-- C2: during DRAWING, a chat message whose trimmed text matches
currentWord case-insensitively, from a non-drawer whose guessed flag is
false, flags the guesser, awards them exactly
max(10, ceil(timeLeft/drawTime*500)) points and the drawer exactly 50,
and advances the turn exactly when every non-drawer has then guessed;
once flagged, a repeated guess from the same player leaves the state
unchanged. -/
theorem correct_guess_scoring (g : Game) (senderId user text : String) (pick : List String)
    (did : String) (pl : Player)
    (hs : g.status = Status.DRAWING)
    (hdid : drawerIdOpt g = some did)
    (hfind : findPlayer g senderId = some pl)
    (hng : pl.guessed = false)
    (hnd : pl.id ≠ did)
    (hm : matchesGuess text g.currentWord = true) :
    ∃ g2 : Game,
      (chatMessage g senderId user text pick).map Prod.fst =
        some (if (g2.players.filter (fun p => !(p.id == did))).all (fun p => p.guessed)
              then (nextTurn g2 pick).1 else g2)
      ∧ scoreOf g2 senderId = pl.score + guessPoints g.timeLeft g.drawTime
      ∧ guessedOf g2 senderId = true
      ∧ (getAtInt g2.players g.drawerIndex).map Player.score =
          (getAtInt g.players g.drawerIndex).map (fun p => p.score + 50)
      ∧ ((g2.players.filter (fun p => !(p.id == did))).all (fun p => p.guessed) = true →
          Emit.toRoom (Payload.system Sys.everyoneGuessed) ∈
            ((chatMessage g senderId user text pick).map Prod.snd).getD [])
      ∧ (∀ (u2 t2 : String) (pk2 : List String),
          (chatMessage g2 senderId u2 t2 pk2).map Prod.fst = some g2) := by
  have hd0 : 0 ≤ g.drawerIndex := by
    by_contra h
    simp [drawerIdOpt, getAtInt, h] at hdid
  have hdg : (g.players[g.drawerIndex.toNat]?).map Player.id = some did := by
    simpa [drawerIdOpt, getAtInt, hd0] using hdid
  have hplid : pl.id = senderId := by
    have h1 := List.find?_some hfind
    simpa using h1
  have hdsne : did ≠ senderId := by
    intro he
    exact hnd (by rw [hplid, he])
  have hne_drawer : ((g.players[g.drawerIndex.toNat]?).map Player.id) ≠ some senderId := by
    rw [hdg]
    simp [hdsne]
  have hcond : (g.status == Status.DRAWING && matchesGuess text g.currentWord) = true := by
    rw [hs, hm]
    rfl
  have hbeq : (pl.id == did) = false := by
    simpa using hnd
  have hget1 : (updateFirstPlayer g.players senderId (fun p => { p with guessed := true, score := p.score + guessPoints g.timeLeft g.drawTime }))[g.drawerIndex.toNat]? = g.players[g.drawerIndex.toNat]? :=
    getAt_updateFirst _ _ _ _ hne_drawer
  have hne1 : ((((updateFirstPlayer g.players senderId (fun p => { p with guessed := true, score := p.score + guessPoints g.timeLeft g.drawTime })))[g.drawerIndex.toNat]?).map Player.id) ≠ some senderId := by
    rw [hget1]
    exact hne_drawer
  have hfp1 : (updateFirstPlayer g.players senderId (fun p => { p with guessed := true, score := p.score + guessPoints g.timeLeft g.drawTime })).find? (fun p => p.id == senderId) = some { pl with guessed := true, score := pl.score + guessPoints g.timeLeft g.drawTime } := by
    rw [find?_updateFirstPlayer g.players senderId (fun p => { p with guessed := true, score := p.score + guessPoints g.timeLeft g.drawTime }) (fun p => rfl)]
    rw [show g.players.find? (fun p => p.id == senderId) = some pl from hfind]
    rfl
  have hfp2 : findPlayer { g with players := modifyAtInt (updateFirstPlayer g.players senderId (fun p => { p with guessed := true, score := p.score + guessPoints g.timeLeft g.drawTime })) g.drawerIndex (fun p => { p with score := p.score + 50 }) } senderId = some { pl with guessed := true, score := pl.score + guessPoints g.timeLeft g.drawTime } := by
    show (modifyAtInt _ _ _).find? (fun p => p.id == senderId) = _
    rw [modifyAtInt, if_pos hd0]
    rw [find?_modifyAt _ (fun p => { p with score := p.score + 50 }) senderId (fun p => rfl) _ hne1]
    exact hfp1
  refine ⟨{ g with players := modifyAtInt (updateFirstPlayer g.players senderId (fun p => { p with guessed := true, score := p.score + guessPoints g.timeLeft g.drawTime })) g.drawerIndex (fun p => { p with score := p.score + 50 }) }, ?_, ?_, ?_, ?_, ?_, ?_⟩
  · simp only [chatMessage, hcond, if_true, hfind, hng, Bool.not_false, hdid, hbeq]
    split <;> rfl
  · simp [scoreOf, hfp2]
  · simp [guessedOf, hfp2]
  · simp only [getAtInt, if_pos hd0, modifyAtInt]
    rw [getAt_modifyAt, hget1]
    cases g.players[g.drawerIndex.toNat]? <;> rfl
  · intro hall
    simp only [chatMessage, hcond, if_true, hfind, hng, Bool.not_false, hdid, hbeq]
    rw [if_pos hall]
    simp
  · intro u2 t2 pk2
    by_cases hc2 : ({ g with players := modifyAtInt (updateFirstPlayer g.players senderId (fun p => { p with guessed := true, score := p.score + guessPoints g.timeLeft g.drawTime })) g.drawerIndex (fun p => { p with score := p.score + 50 }) }.status == Status.DRAWING && matchesGuess t2 ({ g with players := modifyAtInt (updateFirstPlayer g.players senderId (fun p => { p with guessed := true, score := p.score + guessPoints g.timeLeft g.drawTime })) g.drawerIndex (fun p => { p with score := p.score + 50 }) }.currentWord)) = true
    · simp only [chatMessage, hc2, if_true, hfp2]
      rfl
    · simp only [chatMessage, Bool.not_eq_true] at hc2
      simp only [chatMessage, hc2]
      rfl

/-- Witness for C2: Ben guesses " APPLE " (testing trim and case fold)
against the word apple in the concrete room `gDraw`. -/
theorem correct_guess_scoring_w :
    gDraw.status = Status.DRAWING
    ∧ matchesGuess " APPLE " gDraw.currentWord = true
    ∧ ∃ g2 : Game,
        (chatMessage gDraw "B" "Ben" " APPLE " ["x", "y", "z"]).map Prod.fst =
          some (if (g2.players.filter (fun p => !(p.id == "A"))).all (fun p => p.guessed)
                then (nextTurn g2 ["x", "y", "z"]).1 else g2)
        ∧ scoreOf g2 "B" = pB.score + guessPoints gDraw.timeLeft gDraw.drawTime
        ∧ guessedOf g2 "B" = true
        ∧ (getAtInt g2.players gDraw.drawerIndex).map Player.score =
            (getAtInt gDraw.players gDraw.drawerIndex).map (fun p => p.score + 50)
        ∧ ((g2.players.filter (fun p => !(p.id == "A"))).all (fun p => p.guessed) = true →
            Emit.toRoom (Payload.system Sys.everyoneGuessed) ∈
              ((chatMessage gDraw "B" "Ben" " APPLE " ["x", "y", "z"]).map Prod.snd).getD [])
        ∧ (∀ (u2 t2 : String) (pk2 : List String),
            (chatMessage g2 "B" u2 t2 pk2).map Prod.fst = some g2) :=
  ⟨rfl, by decide,
    correct_guess_scoring gDraw "B" "Ben" " APPLE " ["x", "y", "z"] "A" pB
      rfl (by decide) (by decide) rfl (by decide) (by decide)⟩

/-- The removal outcome at the concrete room `gDraw` when the drawer
leaves (defaulted projection of the handler result). -/
def removeResult : Game × List Emit :=
  (handlePlayerRemove gDraw "A" ["x", "y", "z"]).getD (gDraw, [])

/-- C6 counterexample: the claim is false on the code. Removing the
active drawer of a 3-player DRAWING room takes the drawer-skip sub-path,
which emits the skip notice and advance-turn broadcasts but no
"player left" notice at all (socket.ts lines 180-184 return without the
notice emitted at lines 200-203). -/
theorem remove_drawer_skips_left_notice :
    (handlePlayerRemove gDraw "A" ["x", "y", "z"]).isSome = true
    ∧ hasPlayerLeftNotice removeResult.2 = false
    ∧ Emit.toRoom (Payload.system Sys.drawerLeft) ∈ removeResult.2
    ∧ gDraw.status = Status.DRAWING
    ∧ findIdxById gDraw.players "A" = some 0
    ∧ gDraw.drawerIndex = 0
    ∧ 3 ≤ gDraw.players.length := by
  decide

theorem findIdxById_lt_length (l : List Player) (pid : String) :
    ∀ i : Nat, findIdxById l pid = some i → i < l.length := by
  induction l with
  | nil => intro i h; simp [findIdxById] at h
  | cons p rest ih =>
    intro i h
    by_cases hp : p.id == pid
    · simp [findIdxById, hp] at h
      simp only [List.length_cons]
      omega
    · simp only [findIdxById, hp, Bool.false_eq_true, if_false, Option.map_eq_some'] at h
      obtain ⟨m, hm, rfl⟩ := h
      have := ih m hm
      simp only [List.length_cons]
      omega

theorem length_eraseAt (l : List Player) :
    ∀ i : Nat, i < l.length → (eraseAt l i).length = l.length - 1 := by
  induction l with
  | nil => intro i h; simp at h
  | cons p rest ih =>
    intro i h
    cases i with
    | zero => simp [eraseAt]
    | succ m =>
      have hm : m < rest.length := by simpa using h
      simp [eraseAt, ih m hm]
      omega

theorem mem_perPlayer_not_left (g : Game) :
    ∀ e ∈ perPlayerUpdates g,
      (match e with
        | Emit.toRoom (Payload.system (Sys.playerLeft _)) => true
        | _ => false) = false := by
  intro e he
  simp only [perPlayerUpdates, List.mem_map] at he
  obtain ⟨p, -, rfl⟩ := he
  rfl

theorem hasLeft_append (a b : List Emit) :
    hasPlayerLeftNotice (a ++ b) = (hasPlayerLeftNotice a || hasPlayerLeftNotice b) :=
  List.any_append

theorem hasLeft_perPlayer (g : Game) : hasPlayerLeftNotice (perPlayerUpdates g) = false := by
  simp [hasPlayerLeftNotice, perPlayerUpdates, List.any_map, Function.comp]

theorem hasLeft_nextTurn (g : Game) (pick : List String) :
    hasPlayerLeftNotice (nextTurn g pick).2 = false := by
  simp only [nextTurn]
  split <;> split <;> simp [hasPlayerLeftNotice] <;> exact mem_perPlayer_not_left _

theorem hasLeft_hostEvs (c : Bool) (n : String) :
    hasPlayerLeftNotice
      (if c = true then [Emit.toRoom (Payload.system (Sys.hostPromoted n))] else []) = false := by
  cases c <;> rfl

/-- C6 amended: a removal takes exactly one of three paths decided by the
pre-removal player count and phase — deletion (1 player), auto-win
(2 players, phase not LOBBY: survivor gains 100, phase ENDED, no
"player left" notice), or game-continues — and in the continue case the
"player left" notice is emitted exactly when the removed player was NOT
the active drawer of a DRAWING room; the drawer-skip sub-path emits no
such notice (contrary to the original claim). -/
theorem player_remove_outcomes (g : Game) (pid : String) (pick : List String) (i : Nat)
    (hfind : findIdxById g.players pid = some i) :
    (g.players.length = 1 → handlePlayerRemove g pid pick = none)
    ∧ (g.players.length = 2 → g.status ≠ Status.LOBBY → ∃ w g2 evs,
        handlePlayerRemove g pid pick = some (g2, evs)
        ∧ eraseAt g.players i = [w]
        ∧ g2.status = Status.ENDED
        ∧ g2.players = [{ w with score := w.score + 100 }]
        ∧ g2.hostId = w.id
        ∧ hasPlayerLeftNotice evs = false)
    ∧ (2 ≤ g.players.length → (g.status = Status.LOBBY ∨ 3 ≤ g.players.length) → ∃ g2 evs,
        handlePlayerRemove g pid pick = some (g2, evs)
        ∧ (hasPlayerLeftNotice evs = true ↔
            ¬((i : Int) = g.drawerIndex ∧ g.status = Status.DRAWING))) := by
  have hlen : i < g.players.length := findIdxById_lt_length _ _ _ hfind
  have hel : (eraseAt g.players i).length = g.players.length - 1 := length_eraseAt _ _ hlen
  refine ⟨?_, ?_, ?_⟩
  · intro h1
    have h0 : (eraseAt g.players i).length = 0 := by omega
    simp only [handlePlayerRemove, hfind]
    simp [h0]
  · intro h2 hnl
    have h1 : (eraseAt g.players i).length = 1 := by omega
    obtain ⟨w, hw⟩ := List.length_eq_one.mp h1
    have hsl : (g.status == Status.LOBBY) = false := by
      simpa using hnl
    simp only [handlePlayerRemove, hfind, hw]
    simp only [hsl]
    rw [if_neg (by simp), if_pos (by simp)]
    refine ⟨w, _, _, rfl, rfl, rfl, by simp [modifyAt], by simp, ?_⟩
    simp [hasPlayerLeftNotice]
  · intro h2 hor
    have hne0 : ¬ (((eraseAt g.players i).length == 0) = true) := by
      rw [hel]
      simp
      omega
    have hcond2 : ¬ ((!(g.status == Status.LOBBY) && decide ((eraseAt g.players i).length < 2)) = true) := by
      rcases hor with hL | h3
      · simp [hL]
      · have hge : ¬ ((eraseAt g.players i).length < 2) := by
          rw [hel]
          omega
        simp [hge]
    simp only [handlePlayerRemove, hfind]
    rw [if_neg hne0, if_neg hcond2]
    by_cases hD : ((i : Int) = g.drawerIndex ∧ g.status = Status.DRAWING)
    · have hskip : ((decide ((i : Int) = g.drawerIndex)) = true) := by simp [hD.1]
      rw [if_pos (by simp [apply_ite Game.status, hskip, hD.2])]
      refine ⟨_, _, rfl, ?_⟩
      rw [hasLeft_append, hasLeft_append, hasLeft_nextTurn, hasLeft_hostEvs]
      simp [hasPlayerLeftNotice, hD]
    · rw [if_neg ?hcnd]
      case hcnd =>
        rcases (not_and_or.mp hD) with hni | hns
        · simp [hni]
        · simp [apply_ite Game.status, hns]
      refine ⟨_, _, rfl, ?_⟩
      constructor
      · intro _
        exact hD
      · intro _
        rw [hasLeft_append]
        simp [hasPlayerLeftNotice]

/-- Witness for the amended C6: removing non-drawer Ben from the concrete
3-player DRAWING room takes the continue path and does emit the
"player left" notice. -/
theorem player_remove_outcomes_w :
    ∃ g2 evs, handlePlayerRemove gDraw "B" ["x", "y", "z"] = some (g2, evs)
      ∧ hasPlayerLeftNotice evs = true := by
  obtain ⟨g2, evs, heq, hiff⟩ :=
    (player_remove_outcomes gDraw "B" ["x", "y", "z"] 1 (by decide)).2.2
      (by decide) (Or.inr (by decide))
  exact ⟨g2, evs, heq, hiff.mpr (by decide)⟩
